import Mathlib

/-!
# NBA coach sentiment pipeline — verification of the text-processing core

Shallow embedding of `src/sentiment_analysis.py`:

* the rule-based sentiment scorer `analyze_sentiment_rules`;
* the mention-context extraction of `extract_player_mentions`
  (sentence splitting, base-context location, short-context expansion,
  truncation, alias-to-full-name resolution);
* the roster index construction `PLAYER_TO_TEAM`;
* the trend computation core of `compute_player_trends`;
* the persistence step `save_sentiment_results`.

Python strings are modelled as Lean `String` (lists of characters); Python
floats are modelled as exact rationals `ℚ`; the SQLite table
`player_sentiments` is modelled as a list of records.  Case folding
(`str.lower`) is modelled character-wise with `Char.toLower`, which agrees
with Python on the ASCII range used by the indicator vocabulary and rosters.
-/

set_option autoImplicit false

namespace NbaSentiment

/-- `startsWithList sub s`: does the character list `s` begin with `sub`?
Building block for Python substring containment. -/
def startsWithList : List Char → List Char → Bool
  | [], _ => true
  | _ :: _, [] => false
  | a :: as, b :: bs => a == b && startsWithList as bs

/-- `containsSub sub s`: does `sub` occur as a contiguous run inside `s`?
Models Python `sub in s` on strings (the empty string occurs in everything). -/
def containsSub (sub : List Char) : List Char → Bool
  | [] => startsWithList sub []
  | c :: t => startsWithList sub (c :: t) || containsSub sub t

/-- Python `sub in s` for strings. -/
def pyContains (s sub : String) : Bool :=
  containsSub sub.data s.data

/-- Python `str.lower()` (ASCII model, character-wise `Char.toLower`). -/
def pyLower (s : String) : String := ⟨s.data.map Char.toLower⟩

/-- `POSITIVE_INDICATORS` from `src/sentiment_analysis.py` (lines 109-131). -/
def POSITIVE_INDICATORS : List String :=
  [ "played great", "played well", "excellent", "fantastic", "amazing",
    "incredible", "outstanding", "tremendous", "phenomenal", "brilliant",
    "stepped up", "came through", "delivered", "dominated", "took over",
    "earned", "deserves", "trust", "confident in", "believe in",
    "going to play", "more minutes", "expanded role", "starting",
    "love what he", "love his", "really like", "impressed",
    "improved", "getting better", "growing", "progressing", "developing",
    "matured", "evolved", "next level", "breakthrough",
    "leader", "vocal", "sets the tone", "brings energy", "competitor",
    "professional", "works hard", "first one in", "dedicated",
    "great defense", "shot well", "efficient", "smart plays",
    "controlled the game", "made winning plays", "clutch" ]

/-- `NEGATIVE_INDICATORS` from `src/sentiment_analysis.py` (lines 133-154). -/
def NEGATIVE_INDICATORS : List String :=
  [ "struggled", "had a tough", "didn\x27t play well", "off night",
    "not his best", "needs to be better", "got to do more",
    "unacceptable", "disappointed", "frustrating", "concerning",
    "won\x27t play", "less minutes", "coming off bench", "reduced role",
    "not ready", "not there yet", "needs work", "has to earn",
    "look at other options", "evaluate", "figure out",
    "focus", "concentration", "attention to detail", "discipline",
    "can\x27t have", "not acceptable", "expect more", "demand more",
    "day to day", "questionable", "dealing with", "managing",
    "turnovers", "defensive lapses", "shot selection", "forcing",
    "out of control", "decision making", "costly mistakes" ]

/-- `NEUTRAL_INDICATORS` from `src/sentiment_analysis.py` (lines 156-159). -/
def NEUTRAL_INDICATORS : List String :=
  [ "we\x27ll see", "evaluate", "day by day", "game to game",
    "depends on", "matchup", "situation", "look at film" ]

/-- The positive indicator phrases occurring in a lower-cased context,
in phrase-list order (the loop over `POSITIVE_INDICATORS`). -/
def positive_found (context_lower : String) : List String :=
  POSITIVE_INDICATORS.filter (pyContains context_lower)

/-- The negative indicator phrases occurring in a lower-cased context,
in phrase-list order. -/
def negative_found (context_lower : String) : List String :=
  NEGATIVE_INDICATORS.filter (pyContains context_lower)

/-- The neutral indicator phrases occurring in a lower-cased context,
in phrase-list order. -/
def neutral_found (context_lower : String) : List String :=
  NEUTRAL_INDICATORS.filter (pyContains context_lower)

/-- The 4-tuple `(score, label, confidence, indicators)` returned by
`analyze_sentiment_rules`, as a record. -/
structure SentimentResult where
  score : ℚ
  label : String
  confidence : ℚ
  indicators : List String
  deriving DecidableEq, Repr

/-- `analyze_sentiment_rules` from `src/sentiment_analysis.py` (lines 282-331):
lower-case the context, collect matching indicator phrases; with no positive
and no negative match return the neutral fallback; otherwise return the
clamped ratio score, the thresholded label, the capped confidence, and the
positive matches followed by the negative matches. -/
def analyze_sentiment_rules (context : String) : SentimentResult :=
  let context_lower := pyLower context
  let pos := positive_found context_lower
  let neg := negative_found context_lower
  let neu := neutral_found context_lower
  let pos_weight : ℚ := (pos.length : ℚ)
  let neg_weight : ℚ := (neg.length : ℚ)
  let total : ℚ := pos_weight + neg_weight + 1/1000
  if pos.length = 0 ∧ neg.length = 0 then
    { score := 0, label := "neutral", confidence := 3/10,
      indicators := if neu.isEmpty then ["no clear indicators"] else neu }
  else
    let score := max (-1) (min 1 ((pos_weight - neg_weight) / total))
    let label :=
      if score > 1/5 then "positive"
      else if score < -(1/5) then "negative"
      else "neutral"
    let confidence := min (9/10) (4/10 + total * (1/10))
    { score := score, label := label, confidence := confidence,
      indicators := pos ++ neg }

/-! ## Mention Locator: sentence splitting and context extraction -/

/-- A sentence-splitting delimiter: the character class of `re.split(r'[.!?]+', ...)`. -/
def isDelim (c : Char) : Bool := c == '.' || c == '!' || c == '?'

/-- Accumulator worker for `pySplitPunct`.  `inDelim` records whether the
previous character belonged to a delimiter run (a run contributes a single
split, as the regex quantifier `+` does). -/
def pySplitPunctAux : Bool → List Char → List Char → List (List Char)
  | _, acc, [] => [acc.reverse]
  | inDelim, acc, c :: rest =>
    if isDelim c then
      if inDelim then pySplitPunctAux true acc rest
      else acc.reverse :: pySplitPunctAux true [] rest
    else pySplitPunctAux false (c :: acc) rest

/-- `re.split(r'[.!?]+', transcript)` from `extract_player_mentions` (line 230):
split on maximal runs of `.`, `!`, `?`; delimiters are discarded; empty parts
at the ends (and between runs) are kept exactly as `re.split` keeps them. -/
def pySplitPunct (s : String) : List String :=
  (pySplitPunctAux false [] s.data).map (fun l => ⟨l⟩)

/-- Python `str.strip()`: remove leading and trailing whitespace. -/
def pyStrip (s : String) : String :=
  ⟨((s.data.dropWhile Char.isWhitespace).reverse.dropWhile Char.isWhitespace).reverse⟩

/-- Python `s[:n]` for a string. -/
def pyTake (s : String) (n : Nat) : String := ⟨s.data.take n⟩

/-- The loop of `extract_player_mentions` lines 240-246: running cumulative
count `char_count += len(sentence) + 1`; the first sentence whose cumulative
count exceeds `startPos` is stripped and becomes the base context; if no
sentence qualifies the context stays `""`. -/
def findBaseContextAux (startPos : Nat) : Nat → List String → String
  | _, [] => ""
  | charCount, s :: rest =>
    if charCount + s.length + 1 > startPos then pyStrip s
    else findBaseContextAux startPos (charCount + s.length + 1) rest

/-- Base context of the occurrence at character offset `startPos`. -/
def findBaseContext (sentences : List String) (startPos : Nat) : String :=
  findBaseContextAux startPos 0 sentences

/-- Index form of `findBaseContext`: which sentence the cumulative-length loop
stops at (used to state the spec's intended previous/next-unit extension). -/
def containingIdxAux (startPos : Nat) : Nat → Nat → List String → Option Nat
  | _, _, [] => none
  | i, charCount, s :: rest =>
    if charCount + s.length + 1 > startPos then some i
    else containingIdxAux startPos (i + 1) (charCount + s.length + 1) rest

/-- Index of the sentence unit containing offset `startPos`, if any. -/
def containingIdx (sentences : List String) (startPos : Nat) : Option Nat :=
  containingIdxAux startPos 0 0 sentences

/-- Python `list.index` wrapped in an option: index of the first element equal
to `x`, or `none` (the code guards with `if context in sentences else -1`). -/
def pyIndex : List String → String → Option Nat
  | [], _ => none
  | s :: rest, x => if s = x then some 0 else (pyIndex rest x).map (· + 1)

/-- Lines 248-254 of `extract_player_mentions`: if the base context is shorter
than 100 characters, look the (stripped) context up in the raw sentence list
(`sentences.index(context) if context in sentences else -1`), then prepend
`sentences[sent_idx - 1]` when `sent_idx > 0` and append
`sentences[sent_idx + 1]` when `sent_idx < len(sentences) - 1`, both stripped
and joined with `". "`.  `sent_idx` is a Python `int`, so the `-1` fallback
makes the append guard true and `sentences[sent_idx + 1]` equal to
`sentences[0]`. -/
def expandContext (sentences : List String) (context : String) : String :=
  if context.length < 100 then
    let sentIdx : Int :=
      match pyIndex sentences context with
      | some i => (i : Int)
      | none => -1
    let context1 :=
      if sentIdx > 0 then
        pyStrip (sentences.getD (sentIdx - 1).toNat "") ++ ". " ++ context
      else context
    if sentIdx < (sentences.length : Int) - 1 then
      context1 ++ ". " ++ pyStrip (sentences.getD (sentIdx + 1).toNat "")
    else context1
  else context

/-- The full context computed for one located occurrence at offset `startPos`:
split into sentence units, locate the base context, expand it when short, and
truncate to 500 characters (`context[:500]`, line 266). -/
def contextFor (transcript : String) (startPos : Nat) : String :=
  pyTake
    (expandContext (pySplitPunct transcript)
      (findBaseContext (pySplitPunct transcript) startPos))
    500

/-- Modelled from the spec wording of context extension, for comparison with
`contextFor`: locate the containing sentence unit, and when its stripped form
is shorter than 100 characters prepend the previous unit (when one exists) and
append the next unit (when one exists), joined with `". "`, then truncate to
500 characters. -/
def claimedContextFor (transcript : String) (startPos : Nat) : String :=
  let sentences := pySplitPunct transcript
  match containingIdx sentences startPos with
  | none => ""
  | some i =>
    let base := pyStrip (sentences.getD i "")
    let ctx :=
      if base.length < 100 then
        (if 0 < i then pyStrip (sentences.getD (i - 1) "") ++ ". " else "")
          ++ base
          ++ (if i + 1 < sentences.length then ". " ++ pyStrip (sentences.getD (i + 1) "")
              else "")
      else base
    pyTake ctx 500

/-! ## Mention Locator: canonical-name resolution -/

/-- Python `s.endswith(suffix)`. -/
def pyEndsWith (s suffix : String) : Bool :=
  startsWithList suffix.data.reverse s.data.reverse

/-- Worker for Python `str.title()`: `prevAlpha` tells whether the previous
character was a letter; the first letter of each maximal letter run is
upper-cased and the following letters lower-cased. -/
def pyTitleAux : Bool → List Char → List Char
  | _, [] => []
  | prevAlpha, c :: rest =>
    if c.isAlpha then
      (if prevAlpha then c.toLower else c.toUpper) :: pyTitleAux true rest
    else c :: pyTitleAux false rest

/-- Python `str.title()` (ASCII model). -/
def pyTitle (s : String) : String := ⟨pyTitleAux false s.data⟩

/-- Lines 257-261 of `extract_player_mentions`: starting from the matched
identifier, scan `PLAYER_TO_TEAM.items()` in order and take the first full
name on the same team that ends with the matched identifier and is strictly
longer; keep the matched identifier if no entry qualifies. -/
def resolveFullName (index : List (String × String)) (matched team : String) : String :=
  match index with
  | [] => matched
  | (full, t) :: rest =>
    if t = team ∧ pyEndsWith full matched ∧ matched.length < full.length then full
    else resolveFullName rest matched team

/-- The canonical display name stored in the mention: the resolved full name,
title-cased (`full_name.title()`, line 264). -/
def resolveCanonical (index : List (String × String)) (matched team : String) : String :=
  pyTitle (resolveFullName index matched team)

/-! ## Roster index construction (`PLAYER_TO_TEAM`, lines 97-105) -/

/-- Python whitespace split `str.split()` (no empties). -/
def pySplitWsAux : List Char → List Char → List (List Char)
  | acc, [] => if acc.isEmpty then [] else [acc.reverse]
  | acc, c :: rest =>
    if c.isWhitespace then
      if acc.isEmpty then pySplitWsAux [] rest
      else acc.reverse :: pySplitWsAux [] rest
    else pySplitWsAux (c :: acc) rest

/-- Python `str.split()` without arguments. -/
def pySplitWs (s : String) : List String :=
  (pySplitWsAux [] s.data).map (fun l => ⟨l⟩)

/-- `player.split()[-1].lower()` (line 103): the lower-cased last whitespace
word of a player name (player names in the roster table are non-blank). -/
def lastNameKey (player : String) : String :=
  pyLower ((pySplitWs player).getLast?.getD "")

/-- Python `dict` membership `k in d` for the insertion-ordered
association-list model. -/
def dictContains (d : List (String × String)) (k : String) : Bool :=
  d.any (fun e => e.1 == k)

/-- Python `d[k] = v`: update the value in place when the key exists,
otherwise append the new pair at the end (insertion order preserved). -/
def dictInsert (d : List (String × String)) (k v : String) : List (String × String) :=
  if dictContains d k then d.map (fun e => if e.1 == k then (k, v) else e)
  else d ++ [(k, v)]

/-- Python `d.get(k)`: value of the (unique) entry with key `k`. -/
def dictFind? (d : List (String × String)) (k : String) : Option String :=
  (d.find? (fun e => e.1 == k)).map Prod.snd

/-- Body of the roster loop (lines 100-105): register the lower-cased full
name unconditionally, then register the last-name alias only when the key is
not yet present (`if last_name not in PLAYER_TO_TEAM`). -/
def addPlayer (d : List (String × String)) (team player : String) : List (String × String) :=
  let d1 := dictInsert d (pyLower player) team
  let last := lastNameKey player
  if dictContains d1 last then d1 else dictInsert d1 last team

/-- `PLAYER_TO_TEAM` construction (lines 97-105): fold `addPlayer` over the
roster table in iteration order. -/
def buildPlayerToTeam (rosters : List (String × List String)) : List (String × String) :=
  rosters.foldl (fun d tp => tp.2.foldl (fun d p => addPlayer d tp.1 p) d) []

/-- `(team, player)` pairs of the roster table in construction order. -/
def rosterPairs (rosters : List (String × List String)) : List (String × String) :=
  rosters.flatMap (fun tp => tp.2.map (fun p => (tp.1, p)))

/-- `NBA_ROSTERS` from `src/sentiment_analysis.py` (lines 53-95). -/
def NBA_ROSTERS : List (String × List String) :=
  [ ("Boston Celtics",
      ["Jayson Tatum", "Jaylen Brown", "Derrick White", "Jrue Holiday",
       "Kristaps Porzingis", "Al Horford", "Payton Pritchard", "Sam Hauser"]),
    ("Los Angeles Lakers",
      ["LeBron James", "Anthony Davis", "Austin Reaves", "D\x27Angelo Russell",
       "Rui Hachimura", "Gabe Vincent", "Jarred Vanderbilt", "Max Christie"]),
    ("Golden State Warriors",
      ["Stephen Curry", "Draymond Green", "Andrew Wiggins", "Klay Thompson",
       "Jonathan Kuminga", "Kevon Looney", "Chris Paul", "Brandin Podziemski"]),
    ("Denver Nuggets",
      ["Nikola Jokic", "Jamal Murray", "Michael Porter Jr", "Aaron Gordon",
       "Kentavious Caldwell-Pope", "Reggie Jackson", "Christian Braun"]),
    ("Milwaukee Bucks",
      ["Giannis Antetokounmpo", "Damian Lillard", "Khris Middleton",
       "Brook Lopez", "Bobby Portis", "Malik Beasley", "Pat Connaughton"]),
    ("Phoenix Suns",
      ["Kevin Durant", "Devin Booker", "Bradley Beal", "Jusuf Nurkic",
       "Grayson Allen", "Eric Gordon", "Royce O\x27Neale"]),
    ("Philadelphia 76ers",
      ["Joel Embiid", "Tyrese Maxey", "Paul George", "Kelly Oubre Jr",
       "Tobias Harris", "De\x27Anthony Melton", "Nicolas Batum"]),
    ("Miami Heat",
      ["Jimmy Butler", "Bam Adebayo", "Tyler Herro", "Terry Rozier",
       "Jaime Jaquez Jr", "Duncan Robinson", "Caleb Martin"]),
    ("Dallas Mavericks",
      ["Luka Doncic", "Kyrie Irving", "Daniel Gafford", "Dereck Lively II",
       "Tim Hardaway Jr", "Josh Green", "Maxi Kleber"]),
    ("New York Knicks",
      ["Jalen Brunson", "Julius Randle", "OG Anunoby", "Donte DiVincenzo",
       "Josh Hart", "Mitchell Robinson", "Isaiah Hartenstein"]) ]

/-- The program's roster index. -/
def PLAYER_TO_TEAM : List (String × String) := buildPlayerToTeam NBA_ROSTERS

/-! ## Trend computation (`compute_player_trends`, lines 517-543) -/

/-- The fields of `compute_player_trends` relevant to the recent/older split. -/
structure TrendStats where
  recentScores : List ℚ
  olderScores : List ℚ
  recentAvg : ℚ
  olderAvg : ℚ
  trendDiff : ℚ
  trend : String
  deriving DecidableEq, Repr

/-- Core of `compute_player_trends` on the fetched score column (`scores`,
ordered by date descending, at most 100 rows): recent = `scores[:min(5, n)]`,
older = `scores[min(5, n):]`; each average guards against the empty list, the
older average defaulting to the recent one; trend from `trend_diff` against
the `±0.2` thresholds. -/
def computeTrend (scores : List ℚ) : TrendStats :=
  let recent := scores.take (min 5 scores.length)
  let older := scores.drop (min 5 scores.length)
  let recentAvg := if recent.length ≠ 0 then recent.sum / (recent.length : ℚ) else 0
  let olderAvg := if older.length ≠ 0 then older.sum / (older.length : ℚ) else recentAvg
  let diff := recentAvg - olderAvg
  let trend :=
    if diff > 1/5 then "improving"
    else if diff < -(1/5) then "declining"
    else "stable"
  ⟨recent, older, recentAvg, olderAvg, diff, trend⟩

/-! ## Persistence (`save_sentiment_results`, lines 461-490) -/

/-- A row of the `player_sentiments` table. -/
structure SentimentRecord where
  video_id : String
  player_name : String
  team : String
  coach_name : String
  date : String
  context : String
  sentiment_score : ℚ
  sentiment_label : String
  confidence : ℚ
  indicators : List String
  analyzed_at : String
  deriving DecidableEq, Repr

/-- The `UNIQUE(video_id, player_name, context)` identity key comparison. -/
def sameKey (x r : SentimentRecord) : Bool :=
  x.video_id == r.video_id && x.player_name == r.player_name && x.context == r.context

/-- One `INSERT OR REPLACE INTO player_sentiments` statement (lines 468-485):
SQLite deletes every row that conflicts on the unique key and inserts the new
row, so a duplicate key overwrites the stored row.  The surrounding
`except sqlite3.IntegrityError: pass` handler never fires, because
`OR REPLACE` resolves the uniqueness conflict instead of raising. -/
def insertOrReplace (tbl : List SentimentRecord) (r : SentimentRecord) : List SentimentRecord :=
  (tbl.filter (fun x => !sameKey x r)) ++ [r]

/-- `save_sentiment_results`: insert the batch of mentions in order into the
table state. -/
def save_sentiment_results (tbl : List SentimentRecord)
    (mentions : List SentimentRecord) : List SentimentRecord :=
  mentions.foldl insertOrReplace tbl

/-! ## Abbreviations used in claim statements -/

/-- `posCount`: number of positive indicator phrases matching the context. -/
def posCount (c : String) : ℕ := (positive_found (pyLower c)).length

/-- `negCount`: number of negative indicator phrases matching the context. -/
def negCount (c : String) : ℕ := (negative_found (pyLower c)).length

/-- `posCount + negCount + 0.001`, the scorer's denominator (`total`). -/
def totalWeight (c : String) : ℚ := (posCount c : ℚ) + (negCount c : ℚ) + 1/1000

/-- `(posCount - negCount) / (posCount + negCount + 0.001)` clamped to `[-1, 1]`. -/
def clampedScore (c : String) : ℚ :=
  max (-1) (min 1 (((posCount c : ℚ) - (negCount c : ℚ)) / totalWeight c))

/-- A first sentiment record for the key
`("vid1", "Jayson Tatum", "tatum played great")`. -/
def mentionA : SentimentRecord :=
  { video_id := "vid1", player_name := "Jayson Tatum", team := "Boston Celtics",
    coach_name := "Joe Mazzulla", date := "2025-01-01",
    context := "tatum played great", sentiment_score := 1,
    sentiment_label := "positive", confidence := 1,
    indicators := ["played great"], analyzed_at := "t1" }

/-- A second record with the same identity key as `mentionA` but different
score, label, indicators and `analyzed_at`. -/
def mentionB : SentimentRecord :=
  { video_id := "vid1", player_name := "Jayson Tatum", team := "Boston Celtics",
    coach_name := "Joe Mazzulla", date := "2025-01-01",
    context := "tatum played great", sentiment_score := 0,
    sentiment_label := "neutral", confidence := 0,
    indicators := ["no clear indicators"], analyzed_at := "t2" }

end NbaSentiment

namespace NbaSentiment

/-! ## Theorems: rule-based scorer -/

/-- Unfolding of `analyze_sentiment_rules` into its two branches. -/
theorem analyze_sentiment_rules_eq (c : String) :
    analyze_sentiment_rules c =
      if posCount c = 0 ∧ negCount c = 0 then
        { score := 0, label := "neutral", confidence := 3/10,
          indicators := if (neutral_found (pyLower c)).isEmpty then ["no clear indicators"]
                        else neutral_found (pyLower c) }
      else
        { score := clampedScore c,
          label :=
            if clampedScore c > 1/5 then "positive"
            else if clampedScore c < -(1/5) then "negative"
            else "neutral",
          confidence := min (9/10) (4/10 + totalWeight c * (1/10)),
          indicators := positive_found (pyLower c) ++ negative_found (pyLower c) } := rfl

/-- C3: for every context whose lower-cased form matches at least one positive
or negative indicator phrase (`posCount + negCount ≥ 1`), the rule-based
scorer returns the clamped ratio score
`(posCount - negCount) / (posCount + negCount + 0.001)`; the label is
`"positive"` iff `score > 0.2`, `"negative"` iff `score < -0.2`, and
`"neutral"` otherwise; the confidence is
`min(0.9, 0.4 + 0.1 * (posCount + negCount + 0.001))`; and the indicators are
the matched positive phrases followed by the matched negative phrases, each in
phrase-list order. -/
theorem scorer_matched_branch (c : String) (h : 1 ≤ posCount c + negCount c) :
    (analyze_sentiment_rules c).score = clampedScore c
    ∧ ((analyze_sentiment_rules c).label = "positive" ↔ (analyze_sentiment_rules c).score > 1/5)
    ∧ ((analyze_sentiment_rules c).label = "negative" ↔ (analyze_sentiment_rules c).score < -(1/5))
    ∧ ((analyze_sentiment_rules c).label = "neutral" ↔
        (-(1/5) ≤ (analyze_sentiment_rules c).score ∧ (analyze_sentiment_rules c).score ≤ 1/5))
    ∧ (analyze_sentiment_rules c).confidence
        = min (9/10) (4/10 + (1/10) * ((posCount c : ℚ) + (negCount c : ℚ) + 1/1000))
    ∧ (analyze_sentiment_rules c).indicators
        = positive_found (pyLower c) ++ negative_found (pyLower c) := by
  have hcond : ¬(posCount c = 0 ∧ negCount c = 0) := by omega
  rw [analyze_sentiment_rules_eq, if_neg hcond]
  dsimp only
  refine ⟨rfl, ?_, ?_, ?_, ?_, rfl⟩
  · split_ifs with h1 h2
    · exact iff_of_true rfl h1
    · exact iff_of_false (by decide) h1
    · exact iff_of_false (by decide) h1
  · split_ifs with h1 h2
    · exact iff_of_false (by decide) (by intro hh; linarith)
    · exact iff_of_true rfl h2
    · exact iff_of_false (by decide) h2
  · split_ifs with h1 h2
    · exact iff_of_false (by decide) (by rintro ⟨_, hb⟩; linarith)
    · exact iff_of_false (by decide) (by rintro ⟨ha, _⟩; linarith)
    · exact iff_of_true rfl ⟨not_lt.mp h2, not_lt.mp h1⟩
  · rw [totalWeight, mul_comm]

/-- Witness for C3 at the context `"he played great tonight"`
(`posCount = 1`, `negCount = 0`). -/
theorem scorer_matched_branch_witness :
    (1 ≤ posCount "he played great tonight" + negCount "he played great tonight")
    ∧ ((analyze_sentiment_rules "he played great tonight").score
        = clampedScore "he played great tonight"
    ∧ ((analyze_sentiment_rules "he played great tonight").label = "positive"
        ↔ (analyze_sentiment_rules "he played great tonight").score > 1/5)
    ∧ ((analyze_sentiment_rules "he played great tonight").label = "negative"
        ↔ (analyze_sentiment_rules "he played great tonight").score < -(1/5))
    ∧ ((analyze_sentiment_rules "he played great tonight").label = "neutral" ↔
        (-(1/5) ≤ (analyze_sentiment_rules "he played great tonight").score
          ∧ (analyze_sentiment_rules "he played great tonight").score ≤ 1/5))
    ∧ (analyze_sentiment_rules "he played great tonight").confidence
        = min (9/10) (4/10 + (1/10) * ((posCount "he played great tonight" : ℚ)
            + (negCount "he played great tonight" : ℚ) + 1/1000))
    ∧ (analyze_sentiment_rules "he played great tonight").indicators
        = positive_found (pyLower "he played great tonight")
            ++ negative_found (pyLower "he played great tonight")) :=
  ⟨by decide, scorer_matched_branch "he played great tonight" (by decide)⟩

/-- C4: for every context whose lower-cased form matches no positive and no
negative indicator phrase, the scorer returns `score = 0`,
`label = "neutral"`, `confidence = 0.3`, and the matched neutral phrases, or
`["no clear indicators"]` when no neutral phrase matched either. -/
theorem scorer_no_match_branch (c : String) (h : posCount c = 0 ∧ negCount c = 0) :
    (analyze_sentiment_rules c).score = 0
    ∧ (analyze_sentiment_rules c).label = "neutral"
    ∧ (analyze_sentiment_rules c).confidence = 3/10
    ∧ (analyze_sentiment_rules c).indicators
        = (if neutral_found (pyLower c) = [] then ["no clear indicators"]
           else neutral_found (pyLower c)) := by
  rw [analyze_sentiment_rules_eq, if_pos h]
  refine ⟨rfl, rfl, rfl, ?_⟩
  dsimp only
  by_cases hn : neutral_found (pyLower c) = []
  · rw [if_pos hn, if_pos (by simp [hn])]
  · rw [if_neg hn, if_neg (by simp [hn])]

/-- Witness for C4 at the context `"zzz"` (no indicator phrase of any
polarity matches). -/
theorem scorer_no_match_branch_witness :
    (posCount "zzz" = 0 ∧ negCount "zzz" = 0)
    ∧ ((analyze_sentiment_rules "zzz").score = 0
    ∧ (analyze_sentiment_rules "zzz").label = "neutral"
    ∧ (analyze_sentiment_rules "zzz").confidence = 3/10
    ∧ (analyze_sentiment_rules "zzz").indicators
        = (if neutral_found (pyLower "zzz") = [] then ["no clear indicators"]
           else neutral_found (pyLower "zzz"))) :=
  ⟨by decide, scorer_no_match_branch "zzz" (by decide)⟩

/-- C8: the score returned by the rule-based scorer always lies in `[-1, 1]`:
the zero-match branch returns `0` and the other branch clamps. -/
theorem scorer_score_bounds (c : String) :
    -1 ≤ (analyze_sentiment_rules c).score ∧ (analyze_sentiment_rules c).score ≤ 1 := by
  rw [analyze_sentiment_rules_eq]
  split
  · dsimp only; norm_num
  · dsimp only
    rw [clampedScore]
    exact ⟨le_max_left _ _, max_le (by norm_num) (min_le_left _ _)⟩

/-- C9: the confidence always lies in `[0.3, 0.9]` and is never `1`; it is
exactly `0.3` when no positive or negative phrase matches, and otherwise
equals `min(0.9, 0.4 + 0.1 * (posCount + negCount + 0.001))`, which is at
least `0.5`. -/
theorem scorer_confidence_bounds (c : String) :
    3/10 ≤ (analyze_sentiment_rules c).confidence
    ∧ (analyze_sentiment_rules c).confidence ≤ 9/10
    ∧ (analyze_sentiment_rules c).confidence ≠ 1
    ∧ (posCount c = 0 ∧ negCount c = 0 → (analyze_sentiment_rules c).confidence = 3/10)
    ∧ (1 ≤ posCount c + negCount c →
        (analyze_sentiment_rules c).confidence
          = min (9/10) (4/10 + (1/10) * ((posCount c : ℚ) + (negCount c : ℚ) + 1/1000))
        ∧ 1/2 ≤ (analyze_sentiment_rules c).confidence) := by
  rw [analyze_sentiment_rules_eq]
  by_cases h : posCount c = 0 ∧ negCount c = 0
  · rw [if_pos h]
    refine ⟨by norm_num, by norm_num, by norm_num, fun _ => rfl, fun h1 => absurd h1 (by omega)⟩
  · rw [if_neg h]
    dsimp only
    have hge : (1:ℚ) ≤ (posCount c : ℚ) + (negCount c : ℚ) := by
      have h2 : 1 ≤ posCount c + negCount c := by omega
      exact_mod_cast h2
    have hle : min (9/10 : ℚ) (4/10 + totalWeight c * (1/10)) ≤ 9/10 := min_le_left _ _
    have h12 : (1/2 : ℚ) ≤ min (9/10) (4/10 + totalWeight c * (1/10)) := by
      refine le_min (by norm_num) ?_
      rw [totalWeight]
      nlinarith [hge]
    refine ⟨le_trans (by norm_num) h12, hle, ?_, fun hcon => absurd hcon h,
      fun _ => ⟨by rw [totalWeight, mul_comm], h12⟩⟩
    intro heq
    rw [heq] at hle
    norm_num at hle

/-- Witness for C9 at the empty context (exercising the zero-match case of
the conditional clauses). -/
theorem scorer_confidence_bounds_witness :
    3/10 ≤ (analyze_sentiment_rules "").confidence
    ∧ (analyze_sentiment_rules "").confidence ≤ 9/10
    ∧ (analyze_sentiment_rules "").confidence ≠ 1
    ∧ (posCount "" = 0 ∧ negCount "" = 0 → (analyze_sentiment_rules "").confidence = 3/10)
    ∧ (1 ≤ posCount "" + negCount "" →
        (analyze_sentiment_rules "").confidence
          = min (9/10) (4/10 + (1/10) * ((posCount "" : ℚ) + (negCount "" : ℚ) + 1/1000))
        ∧ 1/2 ≤ (analyze_sentiment_rules "").confidence) :=
  scorer_confidence_bounds ""

/-- C10: the indicators list returned by the rule-based scorer is never
empty: the matched positive/negative phrases when there are any, else the
matched neutral phrases, else the sentinel `["no clear indicators"]`. -/
theorem scorer_indicators_nonempty (c : String) :
    (analyze_sentiment_rules c).indicators ≠ [] := by
  rw [analyze_sentiment_rules_eq]
  split
  · dsimp only
    split
    · simp
    · next hn => simp only [List.isEmpty_iff] at hn; exact fun hh => hn (by rw [hh])
  · next hcond =>
    dsimp only
    intro hnil
    rw [List.append_eq_nil] at hnil
    exact hcond ⟨by rw [posCount, hnil.1]; rfl, by rw [negCount, hnil.2]; rfl⟩

/-- Witness for C10 at the context `"zzz"`. -/
theorem scorer_indicators_nonempty_witness :
    (analyze_sentiment_rules "zzz").indicators ≠ [] :=
  scorer_indicators_nonempty "zzz"

/-! ## Theorems: canonical-name resolution -/

/-- The resolution loop returns the first index entry on the requested team
that ends with the matched identifier and is strictly longer, defaulting to
the matched identifier itself. -/
theorem resolveFullName_eq_find? (index : List (String × String)) (matched team : String) :
    resolveFullName index matched team
      = (((index.find? (fun e => e.2 == team && pyEndsWith e.1 matched
            && decide (matched.length < e.1.length))).map Prod.fst).getD matched) := by
  induction index with
  | nil => rfl
  | cons e rest ih =>
    obtain ⟨f, t⟩ := e
    cases hb : (t == team && pyEndsWith f matched && decide (matched.length < f.length)) with
    | true =>
      have hc : t = team ∧ pyEndsWith f matched = true ∧ matched.length < f.length := by
        simpa [Bool.and_eq_true, beq_iff_eq, decide_eq_true_eq, and_assoc] using hb
      rw [resolveFullName, if_pos hc]
      simp [List.find?_cons, hb]
    | false =>
      have hc : ¬(t = team ∧ pyEndsWith f matched = true ∧ matched.length < f.length) := by
        intro hh
        have hbt : (t == team && pyEndsWith f matched
            && decide (matched.length < f.length)) = true := by
          simp [hh.1, hh.2.1, hh.2.2]
        rw [hb] at hbt
        exact Bool.false_ne_true hbt
      rw [resolveFullName, if_neg hc]
      simp only [List.find?_cons, hb, cond_false]
      exact ih

/-- C5: the canonical display name is the first full name found in the Roster
Index on the same team that ends with the matched last-name token and is
strictly longer, title-cased — otherwise the matched identifier title-cased;
in particular, when a unique same-team full name matches the alias, the
alias resolves to that full name (title-cased). -/
theorem resolve_alias_canonical (index : List (String × String)) (matched team full : String)
    (hmem : (full, team) ∈ index)
    (hends : pyEndsWith full matched = true)
    (hlen : matched.length < full.length)
    (huniq : ∀ e ∈ index, e.2 = team → pyEndsWith e.1 matched = true →
        matched.length < e.1.length → e.1 = full) :
    resolveCanonical index matched team
        = pyTitle (((index.find? (fun e => e.2 == team && pyEndsWith e.1 matched
            && decide (matched.length < e.1.length))).map Prod.fst).getD matched)
    ∧ resolveCanonical index matched team = pyTitle full := by
  have h1 : resolveCanonical index matched team
      = pyTitle (((index.find? (fun e => e.2 == team && pyEndsWith e.1 matched
          && decide (matched.length < e.1.length))).map Prod.fst).getD matched) := by
    rw [resolveCanonical, resolveFullName_eq_find?]
  refine ⟨h1, ?_⟩
  have hs : (index.find? (fun e => e.2 == team && pyEndsWith e.1 matched
      && decide (matched.length < e.1.length))).isSome := by
    refine List.find?_isSome.mpr ⟨(full, team), hmem, ?_⟩
    simp [hends, hlen]
  obtain ⟨e, he⟩ := Option.isSome_iff_exists.mp hs
  have hpe := List.find?_some he
  simp only [Bool.and_eq_true, beq_iff_eq, decide_eq_true_eq] at hpe
  have hfull : e.1 = full :=
    huniq e (List.mem_of_find?_eq_some he) hpe.1.1 hpe.1.2 hpe.2
  rw [resolveCanonical, resolveFullName_eq_find?, he]
  simp [hfull]

/-- Witness for C5: the last-name alias `"kerr"` resolves to the unique
matching same-team full name, title-cased as `"Steve Kerr"`. -/
theorem resolve_alias_canonical_witness :
    (("steve kerr", "Golden State Warriors")
        ∈ [("jayson tatum", "Boston Celtics"), ("steve kerr", "Golden State Warriors")])
    ∧ pyEndsWith "steve kerr" "kerr" = true
    ∧ "kerr".length < "steve kerr".length
    ∧ (∀ e ∈ [("jayson tatum", "Boston Celtics"), ("steve kerr", "Golden State Warriors")],
        e.2 = "Golden State Warriors" → pyEndsWith e.1 "kerr" = true →
        "kerr".length < e.1.length → e.1 = "steve kerr")
    ∧ resolveCanonical [("jayson tatum", "Boston Celtics"), ("steve kerr", "Golden State Warriors")]
        "kerr" "Golden State Warriors" = pyTitle "steve kerr"
    ∧ pyTitle "steve kerr" = "Steve Kerr" :=
  ⟨by decide, by decide, by decide, by decide,
    (resolve_alias_canonical _ "kerr" "Golden State Warriors" "steve kerr"
      (by decide) (by decide) (by decide) (by decide)).2,
    by decide⟩

/-! ## Theorems: persistence -/

/-- C1 (code bug): `save_sentiment_results` issues `INSERT OR REPLACE`, so
inserting a second record with an existing identity key
`(video_id, player_name, context)` replaces the stored record instead of
being a no-op: the first-written `sentiment_score` and `analyzed_at` are
lost, contradicting the spec (first write wins) and the function's own dead
`except sqlite3.IntegrityError: pass  # Skip duplicates` handler.  Evaluated
at the concrete duplicate-key pair `mentionA`/`mentionB`. -/
theorem save_overwrites_duplicate_key :
    sameKey mentionA mentionB = true
    ∧ mentionA.sentiment_score ≠ mentionB.sentiment_score
    ∧ mentionA.analyzed_at ≠ mentionB.analyzed_at
    ∧ save_sentiment_results [] [mentionA, mentionB] = [mentionB]
    ∧ save_sentiment_results (save_sentiment_results [] [mentionA]) [mentionB] = [mentionB] := by
  refine ⟨rfl, by decide, by decide, by decide, by decide⟩

/-! ## Theorems: trend computation -/

/-- C7: `computeTrend` splits the (date-descending) score list into
`recent = scores[:min(5, n)]` and `older = scores[min(5, n):]`; whenever
`n ≤ 5` the older set is empty, the older average defaults to the recent
average, the trend difference is `0`, and the reported trend is
`"stable"`. -/
theorem trend_few_records_stable (scores : List ℚ) (_h1 : scores ≠ []) :
    (computeTrend scores).recentScores = scores.take (min 5 scores.length)
    ∧ (computeTrend scores).olderScores = scores.drop (min 5 scores.length)
    ∧ (scores.length ≤ 5 →
        (computeTrend scores).olderScores = []
        ∧ (computeTrend scores).olderAvg = (computeTrend scores).recentAvg
        ∧ (computeTrend scores).trendDiff = 0
        ∧ (computeTrend scores).trend = "stable") := by
  refine ⟨rfl, rfl, fun h2 => ?_⟩
  have hdrop : scores.drop (min 5 scores.length) = [] := by
    rw [min_eq_right h2]
    exact List.drop_length scores
  have havg : (computeTrend scores).olderAvg = (computeTrend scores).recentAvg := by
    simp only [computeTrend, hdrop]
    norm_num
  have hdiff : (computeTrend scores).trendDiff = 0 := by
    have hd : (computeTrend scores).trendDiff
        = (computeTrend scores).recentAvg - (computeTrend scores).olderAvg := rfl
    rw [hd, havg, sub_self]
  have htrend : (computeTrend scores).trend = "stable" := by
    have ht : (computeTrend scores).trend
        = (if (computeTrend scores).trendDiff > 1/5 then "improving"
           else if (computeTrend scores).trendDiff < -(1/5) then "declining"
           else "stable") := rfl
    rw [ht, hdiff, if_neg (by norm_num), if_neg (by norm_num)]
  exact ⟨hdrop, havg, hdiff, htrend⟩

/-- Witness for C7 at a player with exactly three records. -/
theorem trend_few_records_stable_witness :
    (([1, 0, 1] : List ℚ) ≠ [])
    ∧ ([(1:ℚ), 0, 1].length ≤ 5)
    ∧ ((computeTrend [1, 0, 1]).olderScores = []
       ∧ (computeTrend [1, 0, 1]).olderAvg = (computeTrend [1, 0, 1]).recentAvg
       ∧ (computeTrend [1, 0, 1]).trendDiff = 0
       ∧ (computeTrend [1, 0, 1]).trend = "stable") :=
  ⟨by decide, by decide, (trend_few_records_stable [1, 0, 1] (by decide)).2.2 (by decide)⟩


/-! ## Theorems: roster index construction -/

/-- Python `k in d` agrees with the lookup being defined. -/
theorem dictContains_eq_isSome (d : List (String × String)) (k : String) :
    dictContains d k = (dictFind? d k).isSome := by
  induction d with
  | nil => rfl
  | cons e rest ih =>
    rw [dictContains, dictFind?] at *
    cases hb : (e.1 == k) with
    | true => simp [List.any_cons, List.find?_cons, hb]
    | false => simp [List.any_cons, List.find?_cons, hb, ih]

/-- Updating the value stored at a different key does not change a lookup. -/
theorem find?_map_update_ne (d : List (String × String)) (kp v k : String) (h : kp ≠ k) :
    (d.map (fun e => if e.1 == kp then (kp, v) else e)).find? (fun e => e.1 == k)
      = d.find? (fun e => e.1 == k) := by
  induction d with
  | nil => rfl
  | cons e rest ih =>
    rw [List.map_cons]
    by_cases he : e.1 = kp
    · have hfe : (if (e.1 == kp) = true then (kp, v) else e) = (kp, v) := by simp [he]
      rw [hfe, List.find?_cons, List.find?_cons]
      have h1 : ((kp, v).1 == k) = false := by simp [h]
      have h2 : (e.1 == k) = false := by simp [he, h]
      rw [h1, h2]
      simp only [cond_false]
      exact ih
    · have hfe : (if (e.1 == kp) = true then (kp, v) else e) = e := by simp [he]
      rw [hfe, List.find?_cons, List.find?_cons]
      cases hk : (e.1 == k) with
      | true => simp only [cond_true]
      | false => simp only [cond_false]; exact ih

/-- `dictInsert` at a different key does not change a lookup. -/
theorem dictFind?_insert_ne (d : List (String × String)) (kp v k : String) (h : kp ≠ k) :
    dictFind? (dictInsert d kp v) k = dictFind? d k := by
  rw [dictInsert]
  split
  · rw [dictFind?, dictFind?, find?_map_update_ne d kp v k h]
  · rw [dictFind?, dictFind?, List.find?_append]
    have hs : List.find? (fun e => e.1 == k) [(kp, v)] = none := by simp [h]
    rw [hs, Option.or_none]

/-- `dictInsert` at a different key does not change membership. -/
theorem dictContains_insert_ne (d : List (String × String)) (kp v k : String) (h : kp ≠ k) :
    dictContains (dictInsert d kp v) k = dictContains d k := by
  rw [dictContains_eq_isSome, dictContains_eq_isSome, dictFind?_insert_ne d kp v k h]

/-- The nested roster loops are the fold of `addPlayer` over the flattened
`(team, player)` pairs in construction order. -/
theorem buildPlayerToTeam_eq_foldl (rosters : List (String × List String)) :
    buildPlayerToTeam rosters
      = (rosterPairs rosters).foldl (fun d tp => addPlayer d tp.1 tp.2) [] := by
  rw [buildPlayerToTeam, rosterPairs]
  suffices h : ∀ d : List (String × String),
      rosters.foldl (fun d tp => tp.2.foldl (fun d p => addPlayer d tp.1 p) d) d
        = (rosters.flatMap (fun tp => tp.2.map (fun p => (tp.1, p)))).foldl
            (fun d tp => addPlayer d tp.1 tp.2) d by
    exact h []
  induction rosters with
  | nil => intro d; rfl
  | cons tp rest ih =>
    intro d
    rw [List.foldl_cons, List.flatMap_cons, List.foldl_append, List.foldl_map]
    exact ih _

/-- Invariant of the roster fold: provided no player registers `k` as a
lower-cased full-name key, the lookup of `k` after the fold is its lookup in
the starting dictionary, or else the team of the first processed player whose
last name produces `k`. -/
theorem foldl_addPlayer_find? (k : String) (ps : List (String × String)) :
    ∀ d : List (String × String),
      (∀ tp ∈ ps, pyLower tp.2 ≠ k) →
      dictFind? (ps.foldl (fun d tp => addPlayer d tp.1 tp.2) d) k
        = (dictFind? d k).or ((ps.find? (fun tp => lastNameKey tp.2 == k)).map Prod.fst) := by
  induction ps with
  | nil => intro d _; simp [Option.or_none]
  | cons tp rest ih =>
    intro d hfull
    obtain ⟨t, p⟩ := tp
    have hp : pyLower p ≠ k := hfull (t, p) (List.mem_cons_self _ _)
    have hrest : ∀ tp ∈ rest, pyLower tp.2 ≠ k :=
      fun tp htp => hfull tp (List.mem_cons_of_mem _ htp)
    have hd1find : dictFind? (dictInsert d (pyLower p) t) k = dictFind? d k :=
      dictFind?_insert_ne d (pyLower p) t k hp
    have hd1cont : dictContains (dictInsert d (pyLower p) t) k = dictContains d k :=
      dictContains_insert_ne d (pyLower p) t k hp
    rw [List.foldl_cons, ih _ hrest, List.find?_cons]
    cases hb : (lastNameKey p == k) with
    | false =>
      have hne : lastNameKey p ≠ k := by simpa using hb
      have hstep : dictFind? (addPlayer d t p) k = dictFind? d k := by
        rw [addPlayer]
        split
        · exact hd1find
        · rw [dictFind?_insert_ne _ _ _ _ hne]
          exact hd1find
      rw [hstep]
    | true =>
      have heq : lastNameKey p = k := by simpa using hb
      simp only [cond_true, Option.map_some]
      cases hfk : dictFind? d k with
      | some v =>
        have hcontT : dictContains (dictInsert d (pyLower p) t) (lastNameKey p) = true := by
          rw [heq, hd1cont, dictContains_eq_isSome, hfk]
          rfl
        have hstep : dictFind? (addPlayer d t p) k = some v := by
          rw [addPlayer]
          split
          · rw [hd1find, hfk]
          · next hcf => exact absurd hcontT (by simp [hcf])
        rw [hstep]
        rfl
      | none =>
        have hcontF : dictContains (dictInsert d (pyLower p) t) (lastNameKey p) = false := by
          rw [heq, hd1cont, dictContains_eq_isSome, hfk]
          rfl
        have hfnone : List.find? (fun e => e.1 == k) (dictInsert d (pyLower p) t) = none := by
          have hmap := hd1find
          rw [dictFind?, hfk] at hmap
          cases hf : List.find? (fun e => e.1 == k) (dictInsert d (pyLower p) t) with
          | none => rfl
          | some a => rw [hf] at hmap; exact absurd hmap (by simp)
        have hstep : dictFind? (addPlayer d t p) k = some t := by
          rw [addPlayer]
          split
          · next hcf => rw [hcontF] at hcf; exact absurd hcf (by simp)
          · rw [heq, dictInsert, if_neg (by rw [heq] at hcontF; rw [hcontF]; simp)]
            rw [dictFind?, List.find?_append, hfnone, Option.none_or]
            simp
        rw [hstep]
        rfl

/-- C6: for every roster table processed in order, a last-name alias is
registered only when no earlier-registered identifier claims the key, so
after construction every alias key maps to the team of the first player (in
construction order) whose last name produced it — later conflicting aliases
are silently dropped.  The hypothesis states that the alias key collides with
no lower-cased full-name key, which holds for the program's roster table
(full names contain a space, aliases never do). -/
theorem roster_alias_first_wins (rosters : List (String × List String)) (k : String)
    (hfull : ∀ tp ∈ rosterPairs rosters, pyLower tp.2 ≠ k) :
    dictFind? (buildPlayerToTeam rosters) k
      = ((rosterPairs rosters).find? (fun tp => lastNameKey tp.2 == k)).map Prod.fst := by
  rw [buildPlayerToTeam_eq_foldl, foldl_addPlayer_find? k (rosterPairs rosters) [] hfull]
  rfl

/-- Witness for C6 on a roster with a conflicting last name: `"smith"` maps
to the team of the first Smith. -/
theorem roster_alias_first_wins_witness :
    (∀ tp ∈ rosterPairs [("A", ["Bob Smith", "Al Jones"]), ("B", ["Cid Smith"])],
        pyLower tp.2 ≠ "smith")
    ∧ dictFind? (buildPlayerToTeam [("A", ["Bob Smith", "Al Jones"]), ("B", ["Cid Smith"])]) "smith"
        = ((rosterPairs [("A", ["Bob Smith", "Al Jones"]), ("B", ["Cid Smith"])]).find?
            (fun tp => lastNameKey tp.2 == "smith")).map Prod.fst :=
  ⟨by decide, roster_alias_first_wins _ "smith" (by decide)⟩


/-! ## Theorems: context extension -/

/-- The sentence splitter always returns at least one part. -/
theorem pySplitPunctAux_ne_nil (l : List Char) : ∀ (b : Bool) (acc : List Char),
    pySplitPunctAux b acc l ≠ [] := by
  induction l with
  | nil => intro b acc; simp [pySplitPunctAux]
  | cons c rest ih =>
    intro b acc
    rw [pySplitPunctAux]
    split
    · split
      · exact ih _ _
      · simp
    · exact ih _ _

/-- `re.split` always returns a non-empty list of parts. -/
theorem pySplitPunct_ne_nil (s : String) : pySplitPunct s ≠ [] := by
  rw [pySplitPunct]
  intro hh
  exact pySplitPunctAux_ne_nil s.data false [] (List.map_eq_nil_iff.mp hh)

/-- String concatenation is associative. -/
theorem strAppend_assoc (a b c : String) : (a ++ b) ++ c = a ++ (b ++ c) := by
  obtain ⟨la⟩ := a
  obtain ⟨lb⟩ := b
  obtain ⟨lc⟩ := c
  exact congrArg String.mk (List.append_assoc la lb lc)

/-- Appending the empty string is the identity. -/
theorem strAppend_nil (a : String) : a ++ "" = a := by
  obtain ⟨la⟩ := a
  exact congrArg String.mk (List.append_nil la)

/-- Prepending the empty string is the identity. -/
theorem strNil_append (a : String) : "" ++ a = a := rfl

/-- C2 (amended): for every transcript and offset whose base context is
shorter than 100 characters, the extension step looks the stripped base
context up by value in the raw sentence-unit list.  When it occurs (at first
index `i`), the previous unit (stripped, if `i > 0`) is prepended and the
following unit (stripped, if one exists) appended, joined with `". "`,
without re-checking the length.  When it does not occur — which happens for
any sentence carrying leading or trailing whitespace, since the list holds
raw units — nothing is prepended and the stripped FIRST sentence unit is
appended instead of the next one (`sentences[-1 + 1]`).  The final context is
truncated to 500 characters. -/
theorem context_extension_amended (transcript : String) (startPos : Nat)
    (hshort : (findBaseContext (pySplitPunct transcript) startPos).length < 100) :
    contextFor transcript startPos =
      (match pyIndex (pySplitPunct transcript)
          (findBaseContext (pySplitPunct transcript) startPos) with
       | some i =>
          pyTake ((if 0 < i then pyStrip ((pySplitPunct transcript).getD (i - 1) "") ++ ". "
                   else "")
            ++ findBaseContext (pySplitPunct transcript) startPos
            ++ (if i + 1 < (pySplitPunct transcript).length
                then ". " ++ pyStrip ((pySplitPunct transcript).getD (i + 1) "") else "")) 500
       | none =>
          pyTake (findBaseContext (pySplitPunct transcript) startPos
            ++ ". " ++ pyStrip ((pySplitPunct transcript).getD 0 "")) 500) := by
  have hlen : 1 ≤ (pySplitPunct transcript).length :=
    List.length_pos.mpr (pySplitPunct_ne_nil transcript)
  rw [contextFor, expandContext, if_pos hshort]
  cases hidx : pyIndex (pySplitPunct transcript)
      (findBaseContext (pySplitPunct transcript) startPos) with
  | none =>
    dsimp only
    rw [if_neg (show ¬((-1 : Int) > 0) by decide),
      if_pos (show (-1 : Int) < ((pySplitPunct transcript).length : Int) - 1 by omega)]
    have e0 : ((-1 : Int) + 1).toNat = 0 := by decide
    rw [e0]
  | some i =>
    dsimp only
    have e2 : ((i : Int) + 1).toNat = i + 1 := by omega
    by_cases h1 : i + 1 < (pySplitPunct transcript).length
    · rw [if_pos (show (i : Int) < ((pySplitPunct transcript).length : Int) - 1 by omega), e2,
        if_pos h1]
      by_cases h0 : 0 < i
      · have e1 : ((i : Int) - 1).toNat = i - 1 := by omega
        rw [if_pos (show (i : Int) > 0 by omega), e1, if_pos h0]
        simp only [strAppend_assoc]
      · rw [if_neg (show ¬((i : Int) > 0) by omega), if_neg h0, strNil_append]
        simp only [strAppend_assoc]
    · rw [if_neg (show ¬((i : Int) < ((pySplitPunct transcript).length : Int) - 1) by omega),
        if_neg h1, strAppend_nil]
      by_cases h0 : 0 < i
      · have e1 : ((i : Int) - 1).toNat = i - 1 := by omega
        rw [if_pos (show (i : Int) > 0 by omega), e1, if_pos h0]
      · rw [if_neg (show ¬((i : Int) > 0) by omega), if_neg h0, strNil_append]

/-- Counterexample to C2 as stated: in
`"Curry played. Curry ok. Third sentence here."` the occurrence of `"curry"`
at offset 14 has the short base context `"Curry ok"`, whose raw sentence unit
is `" Curry ok"`; the lookup misses, so the code appends the first sentence
instead of prepending the previous and appending the next one as the claim
says. -/
theorem context_extension_counterexample :
    (findBaseContext (pySplitPunct "Curry played. Curry ok. Third sentence here.") 14).length < 100
    ∧ contextFor "Curry played. Curry ok. Third sentence here." 14 = "Curry ok. Curry played"
    ∧ claimedContextFor "Curry played. Curry ok. Third sentence here." 14
        = "Curry played. Curry ok. Third sentence here"
    ∧ contextFor "Curry played. Curry ok. Third sentence here." 14
        ≠ claimedContextFor "Curry played. Curry ok. Third sentence here." 14 := by
  refine ⟨by decide, by decide, by decide, by decide⟩

/-- Witness for the amended C2 at the counterexample transcript and offset. -/
theorem context_extension_amended_witness :
    (findBaseContext (pySplitPunct "Curry played. Curry ok. Third sentence here.") 14).length < 100
    ∧ contextFor "Curry played. Curry ok. Third sentence here." 14 =
      (match pyIndex (pySplitPunct "Curry played. Curry ok. Third sentence here.")
          (findBaseContext (pySplitPunct "Curry played. Curry ok. Third sentence here.") 14) with
       | some i =>
          pyTake ((if 0 < i then
              pyStrip ((pySplitPunct "Curry played. Curry ok. Third sentence here.").getD (i - 1) "")
                ++ ". "
            else "")
            ++ findBaseContext (pySplitPunct "Curry played. Curry ok. Third sentence here.") 14
            ++ (if i + 1 < (pySplitPunct "Curry played. Curry ok. Third sentence here.").length
                then ". " ++ pyStrip
                  ((pySplitPunct "Curry played. Curry ok. Third sentence here.").getD (i + 1) "")
                else "")) 500
       | none =>
          pyTake (findBaseContext (pySplitPunct "Curry played. Curry ok. Third sentence here.") 14
            ++ ". "
            ++ pyStrip ((pySplitPunct "Curry played. Curry ok. Third sentence here.").getD 0 ""))
            500) :=
  ⟨by decide, context_extension_amended "Curry played. Curry ok. Third sentence here." 14 (by decide)⟩

end NbaSentiment
